import Mathlib

/-!
Shallow embedding of `src/packages/lib/src/js/charts/scatter.js`
(metrics-graphics ScatterChart): the point registry (`mountPoints`), the
active-point setter (`set activePoint`), the delaunay event handlers
(`onPointHandler`, `onLeaveHandler`), `redraw`, and `normalizeData`.

Records are modelled as opaque integers (their fields never matter to the
highlight state machine).  Opacities are rationals; the source constants are
`fillOpacity: 0.3` (dim) and `fillOpacity: 1` (emphasized).

Every visible side effect of the handlers (reading a point handle out of the
nested `this.points` structure, a `handle.update({fillOpacity})` style
mutation, a `tooltip.update` or `tooltip.hide` call) is recorded in an
explicit effect trace, and the JavaScript `TypeError` thrown when
`points[i][j]` dereferences `undefined` is modelled by a `threw` flag:
execution of the handler stops at that statement, mutations made before it
persist (as they do on the JS object).
-/

namespace Scatter

/-- The dim fill opacity of the source: `fillOpacity: 0.3` (lines 105, 162),
written as an explicit reduced fraction 3/10. -/
def dimOpacity : ℚ := ⟨3, 10, by decide, by decide⟩

/-- The emphasized fill opacity of the source: `fillOpacity: 1` (line 169). -/
def emphOpacity : ℚ := 1

/-- A rendered point handle as built by `generatePoint` in `mountPoints`
(lines 100-110): its data record, the series color `colors[i]` (`none` when
the colors list is shorter than the series list, as JS indexing yields
`undefined`), radius from the size accessor, fill opacity and stroke width. -/
structure PointHandle where
  dataRecord : ℤ
  color : Option ℕ
  radius : ℚ
  fillOpacity : ℚ
  strokeWidth : ℚ
deriving DecidableEq, Repr

/-- Construction-time configuration of the chart: the size accessor
(default `() => 3`, line 33), the series colors, and the `xRug`/`yRug`
flags (lines 28-29). -/
structure Config where
  sizeAccessor : ℤ → ℚ
  colors : List ℕ
  xRugParams : Bool
  yRugParams : Bool

/-- Observable side effects of the handlers and the `activePoint` setter. -/
inductive Effect where
  /-- Reading `this.points[i][j]` (lines 162, 169). -/
  | derefPoint (i j : ℤ)
  /-- Call `this.points[i][j].update({ fillOpacity: o })` (lines 162, 169). -/
  | styleUpdate (i j : ℤ) (o : ℚ)
  /-- Call `this.tooltip.update(...)` (lines 44, 124). -/
  | tooltipUpdateCall
  /-- Call `this.tooltip.hide()` (lines 45, 136). -/
  | tooltipHideCall
deriving DecidableEq, Repr

/-- Mutable state of the chart object: `this.data`, `this.points`,
the delaunay index's point set (`this.delaunay` is rebuilt over `this.data`
by `mountDelaunay`, line 147), `this._activePoint` (line 24), and whether
the optional tooltip collaborator is present. -/
structure ChartState where
  data : List (List ℤ)
  points : List (List PointHandle)
  delaunayPoints : List (List ℤ)
  activePoint : ℤ × ℤ
  tooltip : Bool
deriving DecidableEq, Repr

/-- Result of running one handler: the effect trace, the state of the chart
object afterwards (mutations made before a throw persist), and whether a
`TypeError` was thrown. -/
structure StepResult where
  effects : List Effect
  state : ChartState
  threw : Bool
deriving DecidableEq, Repr

/-- JS `this.points[i]`: `undefined` (here `none`) for a negative or
out-of-range index. -/
def getSeries (pts : List (List PointHandle)) (i : ℤ) : Option (List PointHandle) :=
  if 0 ≤ i then pts[i.toNat]? else none

/-- JS `this.points[i][j]`: `none` exactly when the JS expression
`points[i][j].update(...)` would throw a `TypeError` (either `points[i]` is
`undefined`, or `points[i][j]` is `undefined`). -/
def getHandle (pts : List (List PointHandle)) (i j : ℤ) : Option PointHandle :=
  match getSeries pts i with
  | none => none
  | some row => if 0 ≤ j then row[j.toNat]? else none

/-- Translation of `handle.update({ fillOpacity: v })`: a partial style update touching
only the fill opacity. -/
def updateStyle (p : PointHandle) (v : ℚ) : PointHandle :=
  { p with fillOpacity := v }

/-- Write fill opacity `v` into handle `(i, j)` of the nested registry;
identity when the handle does not exist (that case never runs, since the
setter throws first). -/
def setOpacity (pts : List (List PointHandle)) (i j : ℤ) (v : ℚ) :
    List (List PointHandle) :=
  match getSeries pts i with
  | none => pts
  | some row =>
    if 0 ≤ j then
      match row[j.toNat]? with
      | none => pts
      | some p => pts.set i.toNat (row.set j.toNat (updateStyle p v))
    else pts

/-- Translation of `set activePoint ({ i, j })` (lines 159-170), statement by statement:
if `_activePoint` is fully set, dereference the old handle and dim it
(TypeError stops here if the pair is out of range of the current registry);
then assign `_activePoint = { i, j }`; then, if the new pair is fully set,
dereference the new handle and emphasize it (TypeError again possible). -/
def setActivePoint (s : ChartState) (i j : ℤ) : StepResult :=
  let oldI := s.activePoint.1
  let oldJ := s.activePoint.2
  -- if a point was previously set, de-set it (lines 161-163)
  let first : List Effect × ChartState × Bool :=
    if oldI ≠ -1 ∧ oldJ ≠ -1 then
      match getHandle s.points oldI oldJ with
      | none => ([Effect.derefPoint oldI oldJ], s, true)
      | some _ =>
        ([Effect.derefPoint oldI oldJ, Effect.styleUpdate oldI oldJ dimOpacity],
         { s with points := setOpacity s.points oldI oldJ dimOpacity }, false)
    else ([], s, false)
  match first with
  | (effs, s1, true) => ⟨effs, s1, true⟩
  | (effs, s1, false) =>
    -- set state (line 166)
    let s2 : ChartState := { s1 with activePoint := (i, j) }
    -- set point to active (line 169)
    if i ≠ -1 ∧ j ≠ -1 then
      match getHandle s2.points i j with
      | none => ⟨effs ++ [Effect.derefPoint i j], s2, true⟩
      | some _ =>
        ⟨effs ++ [Effect.derefPoint i j, Effect.styleUpdate i j emphOpacity],
         { s2 with points := setOpacity s2.points i j emphOpacity }, false⟩
    else ⟨effs, s2, false⟩

/-- The closure returned by `onPointHandler` (lines 118-126).  The delaunay
index resolves a hit point carrying `arrayIndex` (series index; absent for
non-nested data, hence optional) and `index` (point index); both are
non-negative array indices.  `point.arrayIndex ?? 0` is `Option.getD`.
After the setter returns, `if (!this.tooltip) return` guards the
`tooltip.update` call; a throw inside the setter aborts the handler. -/
def onPointStep (s : ChartState) (arrayIndex : Option ℕ) (index : ℕ) : StepResult :=
  let r := setActivePoint s (Int.ofNat (arrayIndex.getD 0)) (Int.ofNat index)
  if r.threw then r
  else if s.tooltip then
    { r with effects := r.effects ++ [Effect.tooltipUpdateCall] }
  else r

/-- The closure returned by `onLeaveHandler` (lines 133-138): assign the
sentinel pair through the setter, then `if (this.tooltip) this.tooltip.hide()`. -/
def onLeaveStep (s : ChartState) : StepResult :=
  let r := setActivePoint s (-1) (-1)
  if r.threw then r
  else if s.tooltip then
    { r with effects := r.effects ++ [Effect.tooltipHideCall] }
  else r

/-- Translation of `mountPoints` (lines 99-111): map every record of every series to a
fresh handle with the dim fill opacity, the series color and the accessor
radius. -/
def mountPoints (cfg : Config) (data : List (List ℤ)) : List (List PointHandle) :=
  data.mapIdx fun i pointSet =>
    pointSet.map fun d =>
      { dataRecord := d
        color := cfg.colors[i]?
        radius := cfg.sizeAccessor d
        fillOpacity := dimOpacity
        strokeWidth := 1 }

/-- Translation of `redraw` (lines 38-59) restricted to the state it mutates: the guarded
tooltip `update`/`hide` pair (lines 43-46), the registry rebuild
(`mountPoints`, line 49) and the delaunay rebuild over the same
`this.data` (`mountDelaunay`, line 52).  `_activePoint` is not touched. -/
def redrawStep (cfg : Config) (s : ChartState) : StepResult :=
  let effs := if s.tooltip then
    [Effect.tooltipUpdateCall, Effect.tooltipHideCall] else []
  ⟨effs,
   { s with points := mountPoints cfg s.data, delaunayPoints := s.data },
   false⟩

/-- Events driving the chart.  `onPoint`/`onLeave` are the two events the
delaunay index raises; modelled from the spec (the Delaunay component is not
under `src/`): a resolved hit carries a non-negative point index and an
optional non-negative series index.  `redraw newData` models the host
replacing `this.data` and calling `redraw()`. -/
inductive Event where
  | onPoint (arrayIndex : Option ℕ) (index : ℕ)
  | onLeave
  | redraw (newData : List (List ℤ))
deriving DecidableEq, Repr

/-- One event step of the chart. -/
def step (cfg : Config) (s : ChartState) : Event → StepResult
  | Event.onPoint ai idx => onPointStep s ai idx
  | Event.onLeave => onLeaveStep s
  | Event.redraw newData => redrawStep cfg { s with data := newData }

/-- Run a sequence of events, concatenating the effect traces.  A throw
aborts one handler but not the chart (the JS object survives the
`TypeError`; later events still fire). -/
def run (cfg : Config) (s : ChartState) : List Event → List Effect × ChartState
  | [] => ([], s)
  | e :: es =>
    let r := step cfg s e
    let rest := run cfg r.state es
    (r.effects ++ rest.1, rest.2)

/-- Raw constructor input: either a single flat sequence of records or a
sequence of series.  `isArrayOfObjects` of the abstract chart (not under
`src/`) distinguishes exactly these two shapes. -/
inductive RawData where
  | flat (records : List ℤ)
  | nested (seriesList : List (List ℤ))
deriving DecidableEq, Repr

/-- Translation of `normalizeData` (lines 172-174): `if (this.isArrayOfObjects) this.data
= [this.data]`.  Modelled from the spec: `isArrayOfObjects` (defined on the
abstract chart, not under `src/`) is true exactly when the input is a single
flat sequence of records. -/
def normalizeData : RawData → List (List ℤ)
  | RawData.flat records => [records]
  | RawData.nested seriesList => seriesList

/-- Chart construction.  Modelled from the spec: the abstract chart
constructor (not under `src/`) stores the data and normalizes it exactly
once before any mounting; the scatter constructor (lines 26-36) then sets
`_activePoint = { i: -1, j: -1 }` (line 24) and calls `this.redraw()`
(line 35), which mounts points and delaunay from the normalized data. -/
def initState (cfg : Config) (raw : RawData) (tooltip : Bool) : ChartState :=
  (redrawStep cfg
    { data := normalizeData raw
      points := []
      delaunayPoints := []
      activePoint := (-1, -1)
      tooltip := tooltip }).state

/-- States reachable from some chart construction by event steps (including
states left behind by a handler that threw). -/
inductive Reachable (cfg : Config) : ChartState → Prop where
  | init (raw : RawData) (tooltip : Bool) : Reachable cfg (initState cfg raw tooltip)
  | step (s : ChartState) (e : Event) :
      Reachable cfg s → Reachable cfg (step cfg s e).state

/-- Per-event results of a sequence of events (effect trace, post-state and
throw flag of every handler invocation, in order). -/
def runResults (cfg : Config) (s : ChartState) : List Event → List StepResult
  | [] => []
  | e :: es =>
    let r := step cfg s e
    r :: runResults cfg r.state es

/-- Exactly the handle at position `q` of the registry carries the
emphasized fill opacity; every other handle does not. -/
def emphasizedOnly (pts : List (List PointHandle)) (q : ℤ × ℤ) : Prop :=
  ∀ (a : Fin pts.length) (b : Fin (pts.get a).length),
    (((pts.get a).get b).fillOpacity = emphOpacity ↔ (Int.ofNat a.val, Int.ofNat b.val) = q)

/-- No handle of the registry carries the emphasized fill opacity. -/
def noneEmphasized (pts : List (List PointHandle)) : Prop :=
  ∀ (a : Fin pts.length) (b : Fin (pts.get a).length),
    ((pts.get a).get b).fillOpacity ≠ emphOpacity

/-- The style mutations of an effect trace: target pair and written opacity
of every `handle.update({fillOpacity})` call, in order. -/
def styleTargets (effs : List Effect) : List (ℤ × ℤ × ℚ) :=
  effs.filterMap fun e =>
    match e with
    | Effect.styleUpdate a b o => some (a, b, o)
    | _ => none

/-- The collaborator-mounting statements executed by `redraw` (lines 38-59),
in program order.  `mountDelaunay hasOnPoint hasOnLeave` records whether the
`onPoint`/`onLeave` handlers of the active-point state machine are passed to
the freshly built delaunay index (lines 153-154). -/
inductive MountAction where
  | mountXRug
  | mountYRug
  | configTooltip
  | mountPoints
  | mountDelaunay (hasOnPoint hasOnLeave : Bool)
  | mountLegend
  | mountBrush
deriving DecidableEq, Repr

/-- Translation of `mountRugs` (lines 68-93): mount an x rug if configured,
then a y rug if configured. -/
def mountRugsActions (xRug yRug : Bool) : List MountAction :=
  (if xRug then [MountAction.mountXRug] else []) ++
  (if yRug then [MountAction.mountYRug] else [])

/-- The sequence of mounting statements of `redraw` (lines 38-59), given the
chart's `xRugParams`/`yRugParams` flags and tooltip presence:
`mountRugs(this.xRugParams, this.yRugParams)`, the guarded tooltip
configuration, `mountPoints`, `mountDelaunay` (with both state-machine
handlers wired, lines 153-154), `mountLegend`, `mountBrush`. -/
def redrawActions (xRug yRug tooltip : Bool) : List MountAction :=
  mountRugsActions xRug yRug ++
  (if tooltip then [MountAction.configTooltip] else []) ++
  [MountAction.mountPoints, MountAction.mountDelaunay true true,
   MountAction.mountLegend, MountAction.mountBrush]

/-- Concrete fixture: default size accessor (`() => 3`), two colors, no rugs. -/
def cfg0 : Config :=
  { sizeAccessor := fun _ => 3, colors := [0, 1], xRugParams := false, yRugParams := false }

/-- Concrete chart over two one-point series with a tooltip present. -/
def chart2 : ChartState := initState cfg0 (RawData.nested [[7], [8]]) true

/-- The chart `chart2` after the pointer resolved to point (0, 0). -/
def chart2Hi : ChartState := (step cfg0 chart2 (Event.onPoint (some 0) 0)).state

/-- A concrete chart with no tooltip collaborator. -/
def chart2NoTip : ChartState := initState cfg0 (RawData.nested [[7], [8]]) false

/-- The chart `chart2` highlighted at (1, 0), then redrawn with a one-series
dataset: the stale active pair (1, 0) survives the redraw. -/
def chartStale : ChartState :=
  (step cfg0 (step cfg0 chart2 (Event.onPoint (some 1) 0)).state
    (Event.redraw [[7]])).state

/-! ### Basic lemmas about the registry operations -/

/-- The structure literal `dimOpacity` is the rational number 3/10. -/
theorem dimOpacity_eq : dimOpacity = 3 / 10 := by
  rw [dimOpacity, Rat.mk'_eq_divInt, Rat.divInt_eq_div]
  norm_num

theorem dimOpacity_ne_emphOpacity : dimOpacity ≠ emphOpacity := by decide

theorem list_set_of_getElem? {α : Type} {l : List α} {n : ℕ} {a : α}
    (h : l[n]? = some a) : l.set n a = l := by
  apply List.ext_getElem?
  intro i
  rw [List.getElem?_set]
  split
  · rename_i he
    subst he
    rw [if_pos (List.getElem?_eq_some.mp h).1, h]
  · rfl

theorem getHandle_nonneg {pts : List (List PointHandle)} {i j : ℤ} {p : PointHandle}
    (h : getHandle pts i j = some p) : 0 ≤ i ∧ 0 ≤ j := by
  unfold getHandle getSeries at h
  by_cases hi : 0 ≤ i
  · simp only [if_pos hi] at h
    match hrow : pts[i.toNat]? with
    | none => rw [hrow] at h; simp at h
    | some row =>
      rw [hrow] at h
      by_cases hj : 0 ≤ j
      · exact ⟨hi, hj⟩
      · simp only [if_neg hj] at h; simp at h
  · simp only [if_neg hi] at h; simp at h

theorem getHandle_eq_some {pts : List (List PointHandle)} {i j : ℤ} {p : PointHandle} :
    getHandle pts i j = some p ↔
      0 ≤ i ∧ 0 ≤ j ∧ ∃ row, pts[i.toNat]? = some row ∧ row[j.toNat]? = some p := by
  constructor
  · intro h
    obtain ⟨hi, hj⟩ := getHandle_nonneg h
    refine ⟨hi, hj, ?_⟩
    unfold getHandle getSeries at h
    simp only [if_pos hi] at h
    match hrow : pts[i.toNat]? with
    | none => rw [hrow] at h; simp at h
    | some row =>
      rw [hrow] at h
      simp only [if_pos hj] at h
      exact ⟨row, rfl, h⟩
  · rintro ⟨hi, hj, row, hrow, hp⟩
    unfold getHandle getSeries
    simp only [if_pos hi, hrow, if_pos hj]
    exact hp

theorem setOpacity_eq_of_getHandle {pts : List (List PointHandle)} {i j : ℤ}
    {p : PointHandle} (h : getHandle pts i j = some p) (v : ℚ) :
    ∃ row, pts[i.toNat]? = some row ∧ row[j.toNat]? = some p ∧
      setOpacity pts i j v = pts.set i.toNat (row.set j.toNat (updateStyle p v)) := by
  obtain ⟨hi, hj, row, hrow, hp⟩ := getHandle_eq_some.mp h
  refine ⟨row, hrow, hp, ?_⟩
  unfold setOpacity getSeries
  simp only [if_pos hi, hrow, if_pos hj, hp]

theorem getHandle_setOpacity_self {pts : List (List PointHandle)} {i j : ℤ}
    {p : PointHandle} (h : getHandle pts i j = some p) (v : ℚ) :
    getHandle (setOpacity pts i j v) i j = some (updateStyle p v) := by
  obtain ⟨hi, hj⟩ := getHandle_nonneg h
  obtain ⟨row, hrow, hp, hset⟩ := setOpacity_eq_of_getHandle h v
  rw [hset]
  apply getHandle_eq_some.mpr
  refine ⟨hi, hj, row.set j.toNat (updateStyle p v), ?_, ?_⟩
  · exact List.getElem?_set_self (List.getElem?_eq_some.mp hrow).1
  · exact List.getElem?_set_self (List.getElem?_eq_some.mp hp).1

theorem getHandle_setOpacity_ne {pts : List (List PointHandle)} {i j a b : ℤ}
    (hne : (a, b) ≠ (i, j)) (v : ℚ) :
    getHandle (setOpacity pts i j v) a b = getHandle pts a b := by
  unfold setOpacity
  match hrow : getSeries pts i with
  | none => rfl
  | some row =>
    by_cases hj : 0 ≤ j
    · simp only [if_pos hj]
      match hp : row[j.toNat]? with
      | none => rfl
      | some p =>
        have hi : 0 ≤ i := by
          unfold getSeries at hrow
          by_cases h : 0 ≤ i
          · exact h
          · rw [if_neg h] at hrow; exact absurd hrow (by simp)
        unfold getHandle getSeries
        by_cases ha : 0 ≤ a
        · simp only [if_pos ha]
          by_cases hai : a = i
          · subst hai
            have hrow0 : pts[a.toNat]? = some row := by
              unfold getSeries at hrow
              rwa [if_pos ha] at hrow
            have hbj : b ≠ j := by
              intro hbj
              exact hne (by rw [hbj])
            rw [List.getElem?_set_self (List.getElem?_eq_some.mp hrow0).1, hrow0]
            by_cases hb : 0 ≤ b
            · simp only [if_pos hb]
              exact List.getElem?_set_ne fun hEq =>
                hbj (by rw [← Int.toNat_of_nonneg hj, ← Int.toNat_of_nonneg hb, hEq])
            · simp only [if_neg hb]
          · rw [List.getElem?_set_ne fun hEq =>
                  hai (by rw [← Int.toNat_of_nonneg hi, ← Int.toNat_of_nonneg ha, hEq])]
        · simp only [if_neg ha]
    · simp only [if_neg hj]

theorem setOpacity_setOpacity_self {pts : List (List PointHandle)} {i j : ℤ}
    {p : PointHandle} (h : getHandle pts i j = some p) (v w : ℚ) :
    setOpacity (setOpacity pts i j v) i j w = setOpacity pts i j w := by
  obtain ⟨row, hrow, hp, hset⟩ := setOpacity_eq_of_getHandle h v
  have hlen : i.toNat < pts.length := (List.getElem?_eq_some.mp hrow).1
  have h2 : getHandle (setOpacity pts i j v) i j = some (updateStyle p v) :=
    getHandle_setOpacity_self h v
  obtain ⟨row2, hrow2, hp2, hset2⟩ := setOpacity_eq_of_getHandle h2 w
  obtain ⟨row3, hrow3, hp3, hset3⟩ := setOpacity_eq_of_getHandle h w
  have hrow3E : row3 = row := by
    rw [hrow] at hrow3
    exact (Option.some.inj hrow3).symm
  have hrow2E : row2 = row.set j.toNat (updateStyle p v) := by
    rw [hset, List.getElem?_set_self hlen] at hrow2
    exact (Option.some.inj hrow2).symm
  rw [hset2, hset, hset3, hrow3E, hrow2E, List.set_set, List.set_set]
  rfl

theorem setOpacity_of_fillOpacity_eq {pts : List (List PointHandle)} {i j : ℤ}
    {p : PointHandle} (h : getHandle pts i j = some p) (hfill : p.fillOpacity = v) :
    setOpacity pts i j v = pts := by
  obtain ⟨row, hrow, hp, hset⟩ := setOpacity_eq_of_getHandle h v
  have hup : updateStyle p v = p := by
    cases p
    simp only [updateStyle] at *
    simp_all
  rw [hset, hup, list_set_of_getElem? hp, list_set_of_getElem? hrow]

/-- Decidability of `emphasizedOnly` (bounded quantification over the
registry). -/
instance decidableEmphasizedOnly (pts : List (List PointHandle)) (q : ℤ × ℤ) :
    Decidable (emphasizedOnly pts q) := by
  unfold emphasizedOnly; exact inferInstance

/-- Decidability of `noneEmphasized`. -/
instance decidableNoneEmphasized (pts : List (List PointHandle)) :
    Decidable (noneEmphasized pts) := by
  unfold noneEmphasized; exact inferInstance

theorem getHandle_get (pts : List (List PointHandle)) (a : Fin pts.length)
    (b : Fin (pts.get a).length) :
    getHandle pts (Int.ofNat a.val) (Int.ofNat b.val) = some ((pts.get a).get b) := by
  apply getHandle_eq_some.mpr
  refine ⟨Int.ofNat_nonneg _, Int.ofNat_nonneg _, pts.get a, ?_, ?_⟩
  · show pts[a.val]? = some (pts.get a)
    rw [List.get_eq_getElem]
    exact List.getElem?_eq_getElem a.isLt
  · show (pts.get a)[b.val]? = some ((pts.get a).get b)
    simp only [List.get_eq_getElem]
    exact List.getElem?_eq_getElem b.isLt

theorem getHandle_fin {pts : List (List PointHandle)} {i j : ℤ} {p : PointHandle}
    (h : getHandle pts i j = some p) :
    ∃ (a : Fin pts.length) (b : Fin (pts.get a).length),
      i = Int.ofNat a.val ∧ j = Int.ofNat b.val ∧ (pts.get a).get b = p := by
  obtain ⟨hi, hj, row, hrow, hp⟩ := getHandle_eq_some.mp h
  have hia : i.toNat < pts.length := (List.getElem?_eq_some.mp hrow).1
  have hga : pts.get ⟨i.toNat, hia⟩ = row := by
    rw [List.get_eq_getElem]
    exact (List.getElem?_eq_some.mp hrow).2
  have hp2 : (pts.get ⟨i.toNat, hia⟩)[j.toNat]? = some p := by rw [hga]; exact hp
  refine ⟨⟨i.toNat, hia⟩, ⟨j.toNat, (List.getElem?_eq_some.mp hp2).1⟩, ?_, ?_, ?_⟩
  · exact (Int.toNat_of_nonneg hi).symm
  · exact (Int.toNat_of_nonneg hj).symm
  · simp only [List.get_eq_getElem]
    exact (List.getElem?_eq_some.mp hp2).2

theorem emphasizedOnly_iff {pts : List (List PointHandle)} {q : ℤ × ℤ} :
    emphasizedOnly pts q ↔
      ∀ i j p, getHandle pts i j = some p → (p.fillOpacity = emphOpacity ↔ (i, j) = q) := by
  constructor
  · intro h i j p hg
    obtain ⟨a, b, rfl, rfl, rfl⟩ := getHandle_fin hg
    exact h a b
  · intro h a b
    exact h _ _ _ (getHandle_get pts a b)

theorem noneEmphasized_iff {pts : List (List PointHandle)} :
    noneEmphasized pts ↔
      ∀ i j p, getHandle pts i j = some p → p.fillOpacity ≠ emphOpacity := by
  constructor
  · intro h i j p hg
    obtain ⟨a, b, rfl, rfl, rfl⟩ := getHandle_fin hg
    exact h a b
  · intro h a b
    exact h _ _ _ (getHandle_get pts a b)

/-! ### Branch lemmas for the active-point setter -/

theorem setActivePoint_stale {s : ChartState} {oi oj : ℤ} (i j : ℤ)
    (hap : s.activePoint = (oi, oj)) (hoi : oi ≠ -1) (hoj : oj ≠ -1)
    (hold : getHandle s.points oi oj = none) :
    setActivePoint s i j = ⟨[Effect.derefPoint oi oj], s, true⟩ := by
  simp only [setActivePoint, hap, hold, ne_eq]
  simp [hoi, hoj]

theorem setActivePoint_from_idle_full {s : ChartState} {i j : ℤ}
    (hap : s.activePoint = (-1, -1)) (hi : i ≠ -1) (hj : j ≠ -1) :
    setActivePoint s i j =
      match getHandle s.points i j with
      | none =>
        ⟨[Effect.derefPoint i j], { s with activePoint := (i, j) }, true⟩
      | some _ =>
        ⟨[Effect.derefPoint i j, Effect.styleUpdate i j emphOpacity],
         { s with points := setOpacity s.points i j emphOpacity,
                  activePoint := (i, j) }, false⟩ := by
  simp only [setActivePoint, hap, ne_eq]
  simp only [not_true_eq_false, false_and, and_false, if_false]
  simp only [if_pos (And.intro hi hj)]
  match hG : getHandle s.points i j with
  | none => simp [hG]
  | some p => simp [hG]

theorem setActivePoint_from_idle_sentinel {s : ChartState}
    (hap : s.activePoint = (-1, -1)) :
    setActivePoint s (-1) (-1) = ⟨[], s, false⟩ := by
  simp only [setActivePoint, hap, ne_eq]
  simp only [not_true_eq_false, false_and, and_false, if_false]
  congr 1
  cases s
  simp_all

theorem setActivePoint_from_highlighted_full {s : ChartState} {oi oj : ℤ}
    {pOld : PointHandle} (i j : ℤ)
    (hap : s.activePoint = (oi, oj)) (hoi : oi ≠ -1) (hoj : oj ≠ -1)
    (hold : getHandle s.points oi oj = some pOld) (hi : i ≠ -1) (hj : j ≠ -1) :
    setActivePoint s i j =
      match getHandle (setOpacity s.points oi oj dimOpacity) i j with
      | none =>
        ⟨[Effect.derefPoint oi oj, Effect.styleUpdate oi oj dimOpacity,
          Effect.derefPoint i j],
         { s with points := setOpacity s.points oi oj dimOpacity,
                  activePoint := (i, j) }, true⟩
      | some _ =>
        ⟨[Effect.derefPoint oi oj, Effect.styleUpdate oi oj dimOpacity,
          Effect.derefPoint i j, Effect.styleUpdate i j emphOpacity],
         { s with points := setOpacity (setOpacity s.points oi oj dimOpacity) i j emphOpacity,
                  activePoint := (i, j) }, false⟩ := by
  simp only [setActivePoint, hap, hold, ne_eq]
  simp only [hoi, hoj, not_false_eq_true, and_self, if_true]
  simp only [if_pos (And.intro hi hj)]
  match hG : getHandle (setOpacity s.points oi oj dimOpacity) i j with
  | none => simp [hG]
  | some p => simp [hG]

theorem setActivePoint_from_highlighted_sentinel {s : ChartState} {oi oj : ℤ}
    {pOld : PointHandle}
    (hap : s.activePoint = (oi, oj)) (hoi : oi ≠ -1) (hoj : oj ≠ -1)
    (hold : getHandle s.points oi oj = some pOld) :
    setActivePoint s (-1) (-1) =
      ⟨[Effect.derefPoint oi oj, Effect.styleUpdate oi oj dimOpacity],
       { s with points := setOpacity s.points oi oj dimOpacity,
                activePoint := (-1, -1) }, false⟩ := by
  simp only [setActivePoint, hap, hold, ne_eq]
  simp only [hoi, hoj, not_false_eq_true, and_self, if_true]
  simp

theorem setActivePoint_noDeset_noSet {s : ChartState} {i j : ℤ}
    (h1 : ¬(s.activePoint.1 ≠ -1 ∧ s.activePoint.2 ≠ -1))
    (h2 : ¬(i ≠ -1 ∧ j ≠ -1)) :
    setActivePoint s i j = ⟨[], { s with activePoint := (i, j) }, false⟩ := by
  simp only [setActivePoint, if_neg h1, if_neg h2]

theorem setActivePoint_noDeset_set {s : ChartState} {i j : ℤ}
    (h1 : ¬(s.activePoint.1 ≠ -1 ∧ s.activePoint.2 ≠ -1))
    (h2i : i ≠ -1) (h2j : j ≠ -1) :
    setActivePoint s i j =
      match getHandle s.points i j with
      | none =>
        ⟨[Effect.derefPoint i j], { s with activePoint := (i, j) }, true⟩
      | some _ =>
        ⟨[Effect.derefPoint i j, Effect.styleUpdate i j emphOpacity],
         { s with points := setOpacity s.points i j emphOpacity,
                  activePoint := (i, j) }, false⟩ := by
  simp only [setActivePoint, if_neg h1, if_pos (And.intro h2i h2j)]
  match hG : getHandle s.points i j with
  | none => simp [hG]
  | some p => simp [hG]

theorem setActivePoint_deset_noSet {s : ChartState} {i j : ℤ} {pOld : PointHandle}
    (h1a : s.activePoint.1 ≠ -1) (h1b : s.activePoint.2 ≠ -1)
    (hold : getHandle s.points s.activePoint.1 s.activePoint.2 = some pOld)
    (h2 : ¬(i ≠ -1 ∧ j ≠ -1)) :
    setActivePoint s i j =
      ⟨[Effect.derefPoint s.activePoint.1 s.activePoint.2,
        Effect.styleUpdate s.activePoint.1 s.activePoint.2 dimOpacity],
       { s with points := setOpacity s.points s.activePoint.1 s.activePoint.2 dimOpacity,
                activePoint := (i, j) }, false⟩ := by
  simp only [setActivePoint, if_pos (And.intro h1a h1b), hold, if_neg h2]

theorem setActivePoint_cases (s : ChartState) (i j : ℤ) :
    ((setActivePoint s i j).state.activePoint = (i, j) ∨
      (setActivePoint s i j).state.activePoint = s.activePoint) ∧
    (setActivePoint s i j).state.tooltip = s.tooltip ∧
    (setActivePoint s i j).state.data = s.data ∧
    (setActivePoint s i j).state.delaunayPoints = s.delaunayPoints ∧
    (∀ e ∈ (setActivePoint s i j).effects,
      e ≠ Effect.tooltipUpdateCall ∧ e ≠ Effect.tooltipHideCall) := by
  by_cases h1 : s.activePoint.1 ≠ -1 ∧ s.activePoint.2 ≠ -1
  · match hold : getHandle s.points s.activePoint.1 s.activePoint.2 with
    | none =>
      rw [setActivePoint_stale i j rfl h1.1 h1.2 hold]
      simp
    | some pOld =>
      by_cases h2 : i ≠ -1 ∧ j ≠ -1
      · rw [setActivePoint_from_highlighted_full i j rfl h1.1 h1.2 hold h2.1 h2.2]
        match hG : getHandle (setOpacity s.points s.activePoint.1 s.activePoint.2 dimOpacity) i j with
        | none => simp
        | some p => simp
      · rw [setActivePoint_deset_noSet h1.1 h1.2 hold h2]
        simp
  · by_cases h2 : i ≠ -1 ∧ j ≠ -1
    · rw [setActivePoint_noDeset_set h1 h2.1 h2.2]
      match hG : getHandle s.points i j with
      | none => simp
      | some p => simp
    · rw [setActivePoint_noDeset_noSet h1 h2]
      simp

/-! ### Step-level lemmas -/

theorem onPointStep_state (s : ChartState) (ai : Option ℕ) (idx : ℕ) :
    (onPointStep s ai idx).state =
      (setActivePoint s (Int.ofNat (ai.getD 0)) (Int.ofNat idx)).state := by
  simp only [onPointStep]
  split
  · rfl
  · split <;> rfl

theorem onPointStep_threw (s : ChartState) (ai : Option ℕ) (idx : ℕ) :
    (onPointStep s ai idx).threw =
      (setActivePoint s (Int.ofNat (ai.getD 0)) (Int.ofNat idx)).threw := by
  simp only [onPointStep]
  split
  · rfl
  · split <;> rfl

theorem onLeaveStep_state (s : ChartState) :
    (onLeaveStep s).state = (setActivePoint s (-1) (-1)).state := by
  simp only [onLeaveStep]
  split
  · rfl
  · split <;> rfl

theorem onLeaveStep_threw (s : ChartState) :
    (onLeaveStep s).threw = (setActivePoint s (-1) (-1)).threw := by
  simp only [onLeaveStep]
  split
  · rfl
  · split <;> rfl

theorem step_state_tooltip (cfg : Config) (s : ChartState) (e : Event) :
    (step cfg s e).state.tooltip = s.tooltip := by
  cases e with
  | onPoint ai idx =>
    rw [step, onPointStep_state]
    exact (setActivePoint_cases s _ _).2.1
  | onLeave =>
    rw [step, onLeaveStep_state]
    exact (setActivePoint_cases s _ _).2.1
  | redraw newData => rfl

theorem step_no_tooltip_effects (cfg : Config) (s : ChartState) (e : Event)
    (h : s.tooltip = false) :
    ∀ x ∈ (step cfg s e).effects,
      x ≠ Effect.tooltipUpdateCall ∧ x ≠ Effect.tooltipHideCall := by
  cases e with
  | onPoint ai idx =>
    show ∀ x ∈ (onPointStep s ai idx).effects, _
    simp only [onPointStep, h]
    split
    · exact (setActivePoint_cases s _ _).2.2.2.2
    · simp only [Bool.false_eq_true, if_false]
      exact (setActivePoint_cases s _ _).2.2.2.2
  | onLeave =>
    show ∀ x ∈ (onLeaveStep s).effects, _
    simp only [onLeaveStep, h]
    split
    · exact (setActivePoint_cases s _ _).2.2.2.2
    · simp only [Bool.false_eq_true, if_false]
      exact (setActivePoint_cases s _ _).2.2.2.2
  | redraw newData =>
    show ∀ x ∈ (redrawStep cfg { s with data := newData }).effects, _
    simp only [redrawStep, h]
    simp

theorem setActivePoint_tooltip_indep (s : ChartState) (i j : ℤ) (b : Bool) :
    (setActivePoint { s with tooltip := b } i j).threw = (setActivePoint s i j).threw ∧
    (setActivePoint { s with tooltip := b } i j).effects = (setActivePoint s i j).effects ∧
    (setActivePoint { s with tooltip := b } i j).state =
      { (setActivePoint s i j).state with tooltip := b } := by
  by_cases h1 : s.activePoint.1 ≠ -1 ∧ s.activePoint.2 ≠ -1
  · match hold : getHandle s.points s.activePoint.1 s.activePoint.2 with
    | none =>
      rw [setActivePoint_stale i j rfl h1.1 h1.2 hold,
        setActivePoint_stale (s := { s with tooltip := b }) i j rfl h1.1 h1.2 hold]
      exact ⟨rfl, rfl, rfl⟩
    | some pOld =>
      by_cases h2 : i ≠ -1 ∧ j ≠ -1
      · rw [setActivePoint_from_highlighted_full i j rfl h1.1 h1.2 hold h2.1 h2.2,
          setActivePoint_from_highlighted_full (s := { s with tooltip := b })
            i j rfl h1.1 h1.2 hold h2.1 h2.2]
        match hG : getHandle (setOpacity s.points s.activePoint.1 s.activePoint.2 dimOpacity) i j with
        | none => exact ⟨rfl, rfl, rfl⟩
        | some p => exact ⟨rfl, rfl, rfl⟩
      · rw [setActivePoint_deset_noSet h1.1 h1.2 hold h2,
          setActivePoint_deset_noSet (s := { s with tooltip := b }) h1.1 h1.2 hold h2]
        exact ⟨rfl, rfl, rfl⟩
  · by_cases h2 : i ≠ -1 ∧ j ≠ -1
    · rw [setActivePoint_noDeset_set h1 h2.1 h2.2,
        setActivePoint_noDeset_set (s := { s with tooltip := b }) h1 h2.1 h2.2]
      match hG : getHandle s.points i j with
      | none => exact ⟨rfl, rfl, rfl⟩
      | some p => exact ⟨rfl, rfl, rfl⟩
    · rw [setActivePoint_noDeset_noSet h1 h2,
        setActivePoint_noDeset_noSet (s := { s with tooltip := b }) h1 h2]
      exact ⟨rfl, rfl, rfl⟩

theorem step_tooltip_indep (cfg : Config) (s : ChartState) (e : Event) (b : Bool) :
    (step cfg { s with tooltip := b } e).threw = (step cfg s e).threw ∧
    (step cfg { s with tooltip := b } e).state =
      { (step cfg s e).state with tooltip := b } := by
  cases e with
  | onPoint ai idx =>
    obtain ⟨ht, he, hs⟩ :=
      setActivePoint_tooltip_indep s (Int.ofNat (ai.getD 0)) (Int.ofNat idx) b
    constructor
    · rw [step, step, onPointStep_threw, onPointStep_threw]
      exact ht
    · rw [step, step, onPointStep_state, onPointStep_state]
      exact hs
  | onLeave =>
    obtain ⟨ht, he, hs⟩ := setActivePoint_tooltip_indep s (-1) (-1) b
    constructor
    · rw [step, step, onLeaveStep_threw, onLeaveStep_threw]
      exact ht
    · rw [step, step, onLeaveStep_state, onLeaveStep_state]
      exact hs
  | redraw newData => exact ⟨rfl, rfl⟩

theorem runResults_threw_tooltip_indep (cfg : Config) (es : List Event) :
    ∀ (s : ChartState) (b : Bool),
      (runResults cfg { s with tooltip := b } es).map StepResult.threw =
        (runResults cfg s es).map StepResult.threw := by
  induction es with
  | nil => intro s b; rfl
  | cons e es ih =>
    intro s b
    obtain ⟨ht, hs⟩ := step_tooltip_indep cfg s e b
    simp only [runResults, List.map_cons]
    rw [ht, hs, ih]

theorem run_no_tooltip_effects (cfg : Config) (es : List Event) :
    ∀ s : ChartState, s.tooltip = false →
      Effect.tooltipUpdateCall ∉ (run cfg s es).1 ∧
      Effect.tooltipHideCall ∉ (run cfg s es).1 := by
  induction es with
  | nil =>
    intro s h
    simp [run]
  | cons e es ih =>
    intro s h
    have h2 : (step cfg s e).state.tooltip = false := by
      rw [step_state_tooltip]; exact h
    have hstep := step_no_tooltip_effects cfg s e h
    have htail := ih (step cfg s e).state h2
    simp only [run, List.mem_append]
    constructor
    · intro hmem
      rcases hmem with hmem | hmem
      · exact (hstep _ hmem).1 rfl
      · exact htail.1 hmem
    · intro hmem
      rcases hmem with hmem | hmem
      · exact (hstep _ hmem).2 rfl
      · exact htail.2 hmem

/-! ### Claim theorems -/

theorem int_ofNat_ne_neg_one (n : ℕ) : (Int.ofNat n) ≠ -1 := by
  show ¬((n : ℤ) = -1)
  omega

/-- Claim C5: in every reachable state of the chart, the active-point
reference is never half-set: it is either the sentinel pair (-1, -1) or a
pair with both indices non-negative. -/
theorem scatter_C5_no_half_set (cfg : Config) (s : ChartState) (h : Reachable cfg s) :
    s.activePoint = (-1, -1) ∨ (0 ≤ s.activePoint.1 ∧ 0 ≤ s.activePoint.2) := by
  induction h with
  | init raw tooltip => left; rfl
  | step s e hr ih =>
    cases e with
    | onPoint ai idx =>
      rw [step, onPointStep_state]
      rcases (setActivePoint_cases s (Int.ofNat (ai.getD 0)) (Int.ofNat idx)).1 with h1 | h1
      · right
        rw [h1]
        exact ⟨Int.ofNat_nonneg _, Int.ofNat_nonneg _⟩
      · rw [h1]
        exact ih
    | onLeave =>
      rw [step, onLeaveStep_state]
      rcases (setActivePoint_cases s (-1) (-1)).1 with h1 | h1
      · left
        rw [h1]
      · rw [h1]
        exact ih
    | redraw newData => exact ih

theorem scatter_C5_no_half_set_witness :
    (step cfg0 chart2 (Event.onPoint (some 0) 0)).state.activePoint = (-1, -1) ∨
    (0 ≤ (step cfg0 chart2 (Event.onPoint (some 0) 0)).state.activePoint.1 ∧
      0 ≤ (step cfg0 chart2 (Event.onPoint (some 0) 0)).state.activePoint.2) :=
  scatter_C5_no_half_set cfg0 _
    (Reachable.step _ _ (Reachable.init (RawData.nested [[7], [8]]) true))

/-- Claim C6: with no tooltip collaborator present, no sequence of events
ever invokes a tooltip method, and the throw behaviour of every handler is
identical to the run with a tooltip present (so nothing fails on account of
the tooltip's absence: every tooltip call site is guarded). -/
theorem scatter_C6_tooltip_optional (cfg : Config) (s : ChartState) (es : List Event)
    (h : s.tooltip = false) :
    Effect.tooltipUpdateCall ∉ (run cfg s es).1 ∧
    Effect.tooltipHideCall ∉ (run cfg s es).1 ∧
    (runResults cfg s es).map StepResult.threw =
      (runResults cfg { s with tooltip := true } es).map StepResult.threw := by
  refine ⟨(run_no_tooltip_effects cfg es s h).1, (run_no_tooltip_effects cfg es s h).2, ?_⟩
  exact (runResults_threw_tooltip_indep cfg es s true).symm

theorem scatter_C6_tooltip_optional_witness :
    Effect.tooltipUpdateCall ∉
      (run cfg0 chart2NoTip
        [Event.onPoint (some 0) 0, Event.onLeave, Event.redraw [[5]],
         Event.onPoint none 0, Event.onLeave]).1 ∧
    Effect.tooltipHideCall ∉
      (run cfg0 chart2NoTip
        [Event.onPoint (some 0) 0, Event.onLeave, Event.redraw [[5]],
         Event.onPoint none 0, Event.onLeave]).1 ∧
    (runResults cfg0 chart2NoTip
        [Event.onPoint (some 0) 0, Event.onLeave, Event.redraw [[5]],
         Event.onPoint none 0, Event.onLeave]).map StepResult.threw =
      (runResults cfg0 { chart2NoTip with tooltip := true }
        [Event.onPoint (some 0) 0, Event.onLeave, Event.redraw [[5]],
         Event.onPoint none 0, Event.onLeave]).map StepResult.threw :=
  scatter_C6_tooltip_optional cfg0 chart2NoTip
    [Event.onPoint (some 0) 0, Event.onLeave, Event.redraw [[5]],
     Event.onPoint none 0, Event.onLeave] rfl

/-- Claim C7: a flat input is normalized into a single-element sequence of
series; an already-nested input is left unchanged; normalization of
already-normalized data is the identity (it effectively happens once); the
chart constructor normalizes before mounting, so the stored data, the point
registry and the delaunay index all consume exactly the once-normalized
data. -/
theorem scatter_C7_normalize_once (cfg : Config) (records : List ℤ)
    (seriesList : List (List ℤ)) (raw : RawData) (tooltip : Bool) :
    normalizeData (RawData.flat records) = [records] ∧
    normalizeData (RawData.nested seriesList) = seriesList ∧
    normalizeData (RawData.nested (normalizeData raw)) = normalizeData raw ∧
    (initState cfg raw tooltip).data = normalizeData raw ∧
    (initState cfg raw tooltip).points = mountPoints cfg (normalizeData raw) ∧
    (initState cfg raw tooltip).delaunayPoints = normalizeData raw :=
  ⟨rfl, rfl, rfl, rfl, rfl, rfl⟩

/-- Claim C10: an `onPoint` event whose hit point carries no series index
behaves exactly like one carrying series index 0 (`point.arrayIndex ?? 0`),
and from an idle state the transition targets Highlighted(0, pointIndex). -/
theorem scatter_C10_missing_series_index (cfg : Config) (s : ChartState) (idx : ℕ)
    (h : s.activePoint = (-1, -1)) :
    step cfg s (Event.onPoint none idx) = step cfg s (Event.onPoint (some 0) idx) ∧
    (step cfg s (Event.onPoint none idx)).state.activePoint =
      (Int.ofNat 0, Int.ofNat idx) := by
  constructor
  · rfl
  · rw [step, onPointStep_state]
    have h1 : ¬(s.activePoint.1 ≠ -1 ∧ s.activePoint.2 ≠ -1) := by
      rw [h]
      simp
    rw [setActivePoint_noDeset_set h1 (int_ofNat_ne_neg_one _) (int_ofNat_ne_neg_one _)]
    split <;> rfl

theorem scatter_C10_missing_series_index_witness :
    step cfg0 chart2 (Event.onPoint none 0) = step cfg0 chart2 (Event.onPoint (some 0) 0) ∧
    (step cfg0 chart2 (Event.onPoint none 0)).state.activePoint =
      (Int.ofNat 0, Int.ofNat 0) :=
  scatter_C10_missing_series_index cfg0 chart2 0 (by decide)

theorem redrawActions_order (x y t : Bool) :
    MountAction.mountDelaunay true true ∈ redrawActions x y t ∧
    (x = true →
      (redrawActions x y t).indexOf MountAction.mountXRug <
        (redrawActions x y t).indexOf MountAction.mountPoints) ∧
    (y = true →
      (redrawActions x y t).indexOf MountAction.mountYRug <
        (redrawActions x y t).indexOf MountAction.mountPoints) ∧
    (redrawActions x y t).indexOf MountAction.mountPoints <
      (redrawActions x y t).indexOf (MountAction.mountDelaunay true true) ∧
    (redrawActions x y t).indexOf (MountAction.mountDelaunay true true) <
      (redrawActions x y t).indexOf MountAction.mountLegend ∧
    (redrawActions x y t).indexOf MountAction.mountLegend <
      (redrawActions x y t).indexOf MountAction.mountBrush := by
  cases x <;> cases y <;> cases t <;> decide

/-- Claim C9: `redraw` executes its rebuild steps in the stated order: rugs
(if configured) before the point registry, the registry before the delaunay
index (which is handed both state-machine handlers), the index before the
legend, the legend before the brush; and one `redraw` pass rebuilds both the
registry and the index from the same current data. -/
theorem scatter_C9_redraw_order (cfg : Config) (tooltip : Bool) (s : ChartState) :
    MountAction.mountDelaunay true true ∈
      redrawActions cfg.xRugParams cfg.yRugParams tooltip ∧
    (cfg.xRugParams = true →
      (redrawActions cfg.xRugParams cfg.yRugParams tooltip).indexOf
          MountAction.mountXRug <
        (redrawActions cfg.xRugParams cfg.yRugParams tooltip).indexOf
          MountAction.mountPoints) ∧
    (cfg.yRugParams = true →
      (redrawActions cfg.xRugParams cfg.yRugParams tooltip).indexOf
          MountAction.mountYRug <
        (redrawActions cfg.xRugParams cfg.yRugParams tooltip).indexOf
          MountAction.mountPoints) ∧
    (redrawActions cfg.xRugParams cfg.yRugParams tooltip).indexOf
        MountAction.mountPoints <
      (redrawActions cfg.xRugParams cfg.yRugParams tooltip).indexOf
        (MountAction.mountDelaunay true true) ∧
    (redrawActions cfg.xRugParams cfg.yRugParams tooltip).indexOf
        (MountAction.mountDelaunay true true) <
      (redrawActions cfg.xRugParams cfg.yRugParams tooltip).indexOf
        MountAction.mountLegend ∧
    (redrawActions cfg.xRugParams cfg.yRugParams tooltip).indexOf
        MountAction.mountLegend <
      (redrawActions cfg.xRugParams cfg.yRugParams tooltip).indexOf
        MountAction.mountBrush ∧
    (redrawStep cfg s).state.points = mountPoints cfg s.data ∧
    (redrawStep cfg s).state.delaunayPoints = s.data := by
  obtain ⟨h1, h2, h3, h4, h5, h6⟩ :=
    redrawActions_order cfg.xRugParams cfg.yRugParams tooltip
  exact ⟨h1, h2, h3, h4, h5, h6, rfl, rfl⟩

/-- Claim C1 (amended): delivering an `onPoint` event carrying the same pair
as the current highlight leaves the chart state unchanged (idempotent in
state), but it is not a no-op in calls: the handler re-issues the dim and
emphasize style updates on that same handle and re-triggers the tooltip
update whenever the tooltip is present. -/
theorem scatter_C1_same_pair (cfg : Config) (s : ChartState) (i j : ℕ)
    (p : PointHandle)
    (hap : s.activePoint = (Int.ofNat i, Int.ofNat j))
    (hp : getHandle s.points (Int.ofNat i) (Int.ofNat j) = some p)
    (hemph : p.fillOpacity = emphOpacity) :
    (step cfg s (Event.onPoint (some i) j)).state = s ∧
    (step cfg s (Event.onPoint (some i) j)).threw = false ∧
    (step cfg s (Event.onPoint (some i) j)).effects =
      [Effect.derefPoint (Int.ofNat i) (Int.ofNat j),
       Effect.styleUpdate (Int.ofNat i) (Int.ofNat j) dimOpacity,
       Effect.derefPoint (Int.ofNat i) (Int.ofNat j),
       Effect.styleUpdate (Int.ofNat i) (Int.ofNat j) emphOpacity] ++
      (if s.tooltip then [Effect.tooltipUpdateCall] else []) := by
  have hsap : setActivePoint s (Int.ofNat i) (Int.ofNat j) =
      ⟨[Effect.derefPoint (Int.ofNat i) (Int.ofNat j),
        Effect.styleUpdate (Int.ofNat i) (Int.ofNat j) dimOpacity,
        Effect.derefPoint (Int.ofNat i) (Int.ofNat j),
        Effect.styleUpdate (Int.ofNat i) (Int.ofNat j) emphOpacity], s, false⟩ := by
    rw [setActivePoint_from_highlighted_full (Int.ofNat i) (Int.ofNat j) hap
      (int_ofNat_ne_neg_one i) (int_ofNat_ne_neg_one j) hp
      (int_ofNat_ne_neg_one i) (int_ofNat_ne_neg_one j)]
    simp only [getHandle_setOpacity_self hp dimOpacity]
    rw [setOpacity_setOpacity_self hp, setOpacity_of_fillOpacity_eq hp hemph, ← hap]
  simp only [step]
  simp only [onPointStep, Option.getD_some, hsap]
  by_cases ht : s.tooltip <;> simp [ht]

theorem scatter_C1_same_pair_witness :
    (step cfg0 chart2Hi (Event.onPoint (some 0) 0)).state = chart2Hi ∧
    (step cfg0 chart2Hi (Event.onPoint (some 0) 0)).threw = false ∧
    (step cfg0 chart2Hi (Event.onPoint (some 0) 0)).effects =
      [Effect.derefPoint (Int.ofNat 0) (Int.ofNat 0),
       Effect.styleUpdate (Int.ofNat 0) (Int.ofNat 0) dimOpacity,
       Effect.derefPoint (Int.ofNat 0) (Int.ofNat 0),
       Effect.styleUpdate (Int.ofNat 0) (Int.ofNat 0) emphOpacity] ++
      (if chart2Hi.tooltip then [Effect.tooltipUpdateCall] else []) :=
  scatter_C1_same_pair cfg0 chart2Hi 0 0
    { dataRecord := 7, color := some 0, radius := 3, fillOpacity := 1, strokeWidth := 1 }
    (by decide) (by decide) (by decide)

/-- Claim C1 as stated is false on the code: from Highlighted(0,0), a second
`onPoint` carrying (0,0) re-issues style mutations on handle (0,0) and a
tooltip update call. -/
theorem scatter_C1_counterexample :
    chart2Hi.activePoint = (0, 0) ∧
    Effect.tooltipUpdateCall ∈ (step cfg0 chart2Hi (Event.onPoint (some 0) 0)).effects ∧
    Effect.styleUpdate 0 0 dimOpacity ∈
      (step cfg0 chart2Hi (Event.onPoint (some 0) 0)).effects ∧
    Effect.styleUpdate 0 0 emphOpacity ∈
      (step cfg0 chart2Hi (Event.onPoint (some 0) 0)).effects := by
  decide

/-- Claim C3: a transition from Highlighted(i,j) to Highlighted(k,l) with
distinct pairs, both in range, happens in one single step (no intermediate
idle state, no tooltip hide): afterwards handle (i,j) is restored to the dim
opacity, handle (k,l) carries the emphasized opacity, and exactly one handle
of the registry is emphasized. -/
theorem scatter_C3_cross_transition (cfg : Config) (s : ChartState) (i j k l : ℕ)
    (pI pK : PointHandle)
    (hap : s.activePoint = (Int.ofNat i, Int.ofNat j))
    (hpI : getHandle s.points (Int.ofNat i) (Int.ofNat j) = some pI)
    (hpK : getHandle s.points (Int.ofNat k) (Int.ofNat l) = some pK)
    (hne : (Int.ofNat k, Int.ofNat l) ≠ (Int.ofNat i, Int.ofNat j))
    (hone : emphasizedOnly s.points (Int.ofNat i, Int.ofNat j)) :
    (step cfg s (Event.onPoint (some k) l)).threw = false ∧
    (step cfg s (Event.onPoint (some k) l)).state.activePoint =
      (Int.ofNat k, Int.ofNat l) ∧
    getHandle (step cfg s (Event.onPoint (some k) l)).state.points
        (Int.ofNat i) (Int.ofNat j) = some (updateStyle pI dimOpacity) ∧
    getHandle (step cfg s (Event.onPoint (some k) l)).state.points
        (Int.ofNat k) (Int.ofNat l) = some (updateStyle pK emphOpacity) ∧
    emphasizedOnly (step cfg s (Event.onPoint (some k) l)).state.points
      (Int.ofNat k, Int.ofNat l) ∧
    (step cfg s (Event.onPoint (some k) l)).effects =
      [Effect.derefPoint (Int.ofNat i) (Int.ofNat j),
       Effect.styleUpdate (Int.ofNat i) (Int.ofNat j) dimOpacity,
       Effect.derefPoint (Int.ofNat k) (Int.ofNat l),
       Effect.styleUpdate (Int.ofNat k) (Int.ofNat l) emphOpacity] ++
      (if s.tooltip then [Effect.tooltipUpdateCall] else []) := by
  have hG : getHandle (setOpacity s.points (Int.ofNat i) (Int.ofNat j) dimOpacity)
      (Int.ofNat k) (Int.ofNat l) = some pK := by
    rw [getHandle_setOpacity_ne hne]
    exact hpK
  have hsap : setActivePoint s (Int.ofNat k) (Int.ofNat l) =
      ⟨[Effect.derefPoint (Int.ofNat i) (Int.ofNat j),
        Effect.styleUpdate (Int.ofNat i) (Int.ofNat j) dimOpacity,
        Effect.derefPoint (Int.ofNat k) (Int.ofNat l),
        Effect.styleUpdate (Int.ofNat k) (Int.ofNat l) emphOpacity],
       { s with
          points := setOpacity (setOpacity s.points (Int.ofNat i) (Int.ofNat j)
            dimOpacity) (Int.ofNat k) (Int.ofNat l) emphOpacity,
          activePoint := (Int.ofNat k, Int.ofNat l) }, false⟩ := by
    rw [setActivePoint_from_highlighted_full (Int.ofNat k) (Int.ofNat l) hap
      (int_ofNat_ne_neg_one i) (int_ofNat_ne_neg_one j) hpI
      (int_ofNat_ne_neg_one k) (int_ofNat_ne_neg_one l)]
    simp only [hG]
  have hfinI : getHandle (setOpacity (setOpacity s.points (Int.ofNat i) (Int.ofNat j)
      dimOpacity) (Int.ofNat k) (Int.ofNat l) emphOpacity)
      (Int.ofNat i) (Int.ofNat j) = some (updateStyle pI dimOpacity) := by
    rw [getHandle_setOpacity_ne (Ne.symm hne)]
    exact getHandle_setOpacity_self hpI dimOpacity
  have hfinK : getHandle (setOpacity (setOpacity s.points (Int.ofNat i) (Int.ofNat j)
      dimOpacity) (Int.ofNat k) (Int.ofNat l) emphOpacity)
      (Int.ofNat k) (Int.ofNat l) = some (updateStyle pK emphOpacity) :=
    getHandle_setOpacity_self hG emphOpacity
  have honeF : emphasizedOnly (setOpacity (setOpacity s.points (Int.ofNat i)
      (Int.ofNat j) dimOpacity) (Int.ofNat k) (Int.ofNat l) emphOpacity)
      (Int.ofNat k, Int.ofNat l) := by
    apply emphasizedOnly_iff.mpr
    intro a b q hq
    by_cases hab : (a, b) = ((Int.ofNat k : ℤ), (Int.ofNat l : ℤ))
    · have ha : a = Int.ofNat k := congrArg Prod.fst hab
      have hb : b = Int.ofNat l := congrArg Prod.snd hab
      subst ha
      subst hb
      rw [hfinK] at hq
      have hqe : q = updateStyle pK emphOpacity := (Option.some.inj hq).symm
      rw [hqe]
      exact iff_of_true rfl hab
    · rw [getHandle_setOpacity_ne hab] at hq
      by_cases hab2 : (a, b) = ((Int.ofNat i : ℤ), (Int.ofNat j : ℤ))
      · have ha : a = Int.ofNat i := congrArg Prod.fst hab2
        have hb : b = Int.ofNat j := congrArg Prod.snd hab2
        subst ha
        subst hb
        rw [getHandle_setOpacity_self hpI dimOpacity] at hq
        have hqe : q = updateStyle pI dimOpacity := (Option.some.inj hq).symm
        refine iff_of_false ?_ hab
        rw [hqe]
        exact dimOpacity_ne_emphOpacity
      · rw [getHandle_setOpacity_ne hab2] at hq
        refine iff_of_false ?_ hab
        intro hqe
        exact hab2 ((emphasizedOnly_iff.mp hone _ _ _ hq).mp hqe)
  simp only [step]
  simp only [onPointStep, Option.getD_some, hsap]
  by_cases ht : s.tooltip <;> simp [ht] <;> exact ⟨hfinI, hfinK, honeF⟩

theorem scatter_C3_cross_transition_witness :
    (step cfg0 chart2Hi (Event.onPoint (some 1) 0)).threw = false ∧
    (step cfg0 chart2Hi (Event.onPoint (some 1) 0)).state.activePoint =
      (Int.ofNat 1, Int.ofNat 0) ∧
    getHandle (step cfg0 chart2Hi (Event.onPoint (some 1) 0)).state.points
        (Int.ofNat 0) (Int.ofNat 0) =
      some (updateStyle
        { dataRecord := 7, color := some 0, radius := 3, fillOpacity := 1,
          strokeWidth := 1 } dimOpacity) ∧
    getHandle (step cfg0 chart2Hi (Event.onPoint (some 1) 0)).state.points
        (Int.ofNat 1) (Int.ofNat 0) =
      some (updateStyle
        { dataRecord := 8, color := some 1, radius := 3, fillOpacity := dimOpacity,
          strokeWidth := 1 } emphOpacity) ∧
    emphasizedOnly (step cfg0 chart2Hi (Event.onPoint (some 1) 0)).state.points
      (Int.ofNat 1, Int.ofNat 0) ∧
    (step cfg0 chart2Hi (Event.onPoint (some 1) 0)).effects =
      [Effect.derefPoint (Int.ofNat 0) (Int.ofNat 0),
       Effect.styleUpdate (Int.ofNat 0) (Int.ofNat 0) dimOpacity,
       Effect.derefPoint (Int.ofNat 1) (Int.ofNat 0),
       Effect.styleUpdate (Int.ofNat 1) (Int.ofNat 0) emphOpacity] ++
      (if chart2Hi.tooltip then [Effect.tooltipUpdateCall] else []) :=
  scatter_C3_cross_transition cfg0 chart2Hi 0 0 1 0
    { dataRecord := 7, color := some 0, radius := 3, fillOpacity := 1, strokeWidth := 1 }
    { dataRecord := 8, color := some 1, radius := 3, fillOpacity := dimOpacity,
      strokeWidth := 1 }
    (by decide) (by decide) (by decide) (by decide) (by decide)

theorem onLeaveStep_effects (s : ChartState)
    (h : (setActivePoint s (-1) (-1)).threw = false) :
    (onLeaveStep s).effects =
      (setActivePoint s (-1) (-1)).effects ++
      (if s.tooltip then [Effect.tooltipHideCall] else []) := by
  by_cases ht : s.tooltip <;> simp [onLeaveStep, h, ht]

theorem onPointStep_effects (s : ChartState) (ai : Option ℕ) (idx : ℕ)
    (h : (setActivePoint s (Int.ofNat (ai.getD 0)) (Int.ofNat idx)).threw = false) :
    (onPointStep s ai idx).effects =
      (setActivePoint s (Int.ofNat (ai.getD 0)) (Int.ofNat idx)).effects ++
      (if s.tooltip then [Effect.tooltipUpdateCall] else []) := by
  have h2 : (setActivePoint s ((ai.getD 0 : ℕ) : ℤ) ((idx : ℕ) : ℤ)).threw = false := h
  by_cases ht : s.tooltip <;> simp [onPointStep, h2, ht]

theorem onPointStep_of_threw (s : ChartState) (ai : Option ℕ) (idx : ℕ)
    (h : (setActivePoint s (Int.ofNat (ai.getD 0)) (Int.ofNat idx)).threw = true) :
    onPointStep s ai idx =
      setActivePoint s (Int.ofNat (ai.getD 0)) (Int.ofNat idx) := by
  have h2 : (setActivePoint s ((ai.getD 0 : ℕ) : ℤ) ((idx : ℕ) : ℤ)).threw = true := h
  simp [onPointStep, h2]

/-- Claim C4 (amended): on `onLeave`, if the state is Highlighted with an
in-range pair, that point's handle is restored to exactly the dim fill
opacity 0.3 (`updateStyle p dimOpacity`), every other handle is left
untouched, the state becomes the sentinel pair, and the tooltip's `hide()`
is called; after the event no handle is emphasized, and any style mutation
in the effect trace targets only the previously active pair with the dim
value.  If the state is already idle, the points and the state are
unchanged and no style mutation happens, but `hide()` is still called (once
per event) whenever the tooltip is present: repeated `onLeave` events DO
each produce a `hide()` call. -/
theorem scatter_C4_leave (cfg : Config) (s : ChartState)
    (hone : emphasizedOnly s.points s.activePoint)
    (hsafe : s.activePoint.1 ≠ -1 ∧ s.activePoint.2 ≠ -1 →
      (getHandle s.points s.activePoint.1 s.activePoint.2).isSome = true) :
    (step cfg s Event.onLeave).threw = false ∧
    (step cfg s Event.onLeave).state.activePoint = (-1, -1) ∧
    (∀ p, getHandle s.points s.activePoint.1 s.activePoint.2 = some p →
      getHandle (step cfg s Event.onLeave).state.points
        s.activePoint.1 s.activePoint.2 = some (updateStyle p dimOpacity)) ∧
    (∀ a b, (a, b) ≠ (s.activePoint.1, s.activePoint.2) →
      getHandle (step cfg s Event.onLeave).state.points a b =
        getHandle s.points a b) ∧
    noneEmphasized (step cfg s Event.onLeave).state.points ∧
    styleTargets (step cfg s Event.onLeave).effects ⊆
      [(s.activePoint.1, s.activePoint.2, dimOpacity)] ∧
    (step cfg s Event.onLeave).effects.count Effect.tooltipHideCall =
      (if s.tooltip then 1 else 0) ∧
    (s.activePoint = (-1, -1) →
      (step cfg s Event.onLeave).state = s ∧
      styleTargets (step cfg s Event.onLeave).effects = []) := by
  show (onLeaveStep s).threw = false ∧ (onLeaveStep s).state.activePoint = (-1, -1) ∧
    (∀ p, getHandle s.points s.activePoint.1 s.activePoint.2 = some p →
      getHandle (onLeaveStep s).state.points s.activePoint.1 s.activePoint.2 =
        some (updateStyle p dimOpacity)) ∧
    (∀ a b, (a, b) ≠ (s.activePoint.1, s.activePoint.2) →
      getHandle (onLeaveStep s).state.points a b = getHandle s.points a b) ∧
    noneEmphasized (onLeaveStep s).state.points ∧
    styleTargets (onLeaveStep s).effects ⊆
      [(s.activePoint.1, s.activePoint.2, dimOpacity)] ∧
    (onLeaveStep s).effects.count Effect.tooltipHideCall = (if s.tooltip then 1 else 0) ∧
    (s.activePoint = (-1, -1) →
      (onLeaveStep s).state = s ∧ styleTargets (onLeaveStep s).effects = [])
  by_cases h1 : s.activePoint.1 ≠ -1 ∧ s.activePoint.2 ≠ -1
  · obtain ⟨pOld, hpOld⟩ := Option.isSome_iff_exists.mp (hsafe h1)
    have hsap := setActivePoint_from_highlighted_sentinel
      (rfl : s.activePoint = (s.activePoint.1, s.activePoint.2)) h1.1 h1.2 hpOld
    have hthrew : (setActivePoint s (-1) (-1)).threw = false := by rw [hsap]
    have heff := onLeaveStep_effects s hthrew
    have hnone : noneEmphasized
        (setOpacity s.points s.activePoint.1 s.activePoint.2 dimOpacity) := by
      apply noneEmphasized_iff.mpr
      intro a b q hq
      by_cases hab : (a, b) = (s.activePoint.1, s.activePoint.2)
      · have ha : a = s.activePoint.1 := congrArg Prod.fst hab
        have hb : b = s.activePoint.2 := congrArg Prod.snd hab
        subst ha
        subst hb
        rw [getHandle_setOpacity_self hpOld dimOpacity] at hq
        have hqe : q = updateStyle pOld dimOpacity := (Option.some.inj hq).symm
        rw [hqe]
        exact dimOpacity_ne_emphOpacity
      · rw [getHandle_setOpacity_ne hab] at hq
        intro hqe
        exact hab ((emphasizedOnly_iff.mp hone _ _ _ hq).mp hqe)
    refine ⟨?_, ?_, ?_, ?_, ?_, ?_, ?_, ?_⟩
    · rw [onLeaveStep_threw]
      exact hthrew
    · rw [onLeaveStep_state, hsap]
    · intro p hp
      rw [onLeaveStep_state, hsap]
      exact getHandle_setOpacity_self hp dimOpacity
    · intro a b hab
      rw [onLeaveStep_state, hsap]
      exact getHandle_setOpacity_ne hab dimOpacity
    · rw [onLeaveStep_state, hsap]
      exact hnone
    · rw [heff, hsap]
      by_cases ht : s.tooltip <;> simp [ht, styleTargets]
    · rw [heff, hsap]
      by_cases ht : s.tooltip <;> simp [ht]
    · intro h
      exact absurd (congrArg Prod.fst h) h1.1
  · have hsap := setActivePoint_noDeset_noSet (i := -1) (j := -1) h1 (by simp)
    have hthrew : (setActivePoint s (-1) (-1)).threw = false := by rw [hsap]
    have heff := onLeaveStep_effects s hthrew
    have hnone : noneEmphasized s.points := by
      apply noneEmphasized_iff.mpr
      intro a b q hq
      obtain ⟨ha0, hb0⟩ := getHandle_nonneg hq
      intro hqe
      have hab := (emphasizedOnly_iff.mp hone _ _ _ hq).mp hqe
      rcases not_and_or.mp h1 with h2 | h2
      · have ha1 : a = s.activePoint.1 := congrArg Prod.fst hab
        rw [not_not.mp h2] at ha1
        rw [ha1] at ha0
        exact absurd ha0 (by norm_num)
      · have hb1 : b = s.activePoint.2 := congrArg Prod.snd hab
        rw [not_not.mp h2] at hb1
        rw [hb1] at hb0
        exact absurd hb0 (by norm_num)
    refine ⟨?_, ?_, ?_, ?_, ?_, ?_, ?_, ?_⟩
    · rw [onLeaveStep_threw]
      exact hthrew
    · rw [onLeaveStep_state, hsap]
    · intro p hp
      exfalso
      obtain ⟨ha0, hb0⟩ := getHandle_nonneg hp
      apply h1
      constructor
      · intro hEq
        rw [hEq] at ha0
        exact absurd ha0 (by norm_num)
      · intro hEq
        rw [hEq] at hb0
        exact absurd hb0 (by norm_num)
    · intro a b hab
      rw [onLeaveStep_state, hsap]
    · rw [onLeaveStep_state, hsap]
      exact hnone
    · rw [heff, hsap]
      by_cases ht : s.tooltip <;> simp [ht, styleTargets]
    · rw [heff, hsap]
      by_cases ht : s.tooltip <;> simp [ht]
    · intro h
      constructor
      · rw [onLeaveStep_state, hsap]
        show ({ s with activePoint := ((-1 : ℤ), (-1 : ℤ)) } : ChartState) = s
        rw [← h]
      · rw [heff, hsap]
        by_cases ht : s.tooltip <;> simp [ht, styleTargets]

theorem scatter_C4_counterexample :
    (run cfg0 chart2Hi [Event.onLeave, Event.onLeave]).1.count
        Effect.tooltipHideCall = 2 ∧
    (step cfg0 (step cfg0 chart2Hi Event.onLeave).state Event.onLeave).state.activePoint =
      (-1, -1) ∧
    Effect.tooltipHideCall ∈
      (step cfg0 (step cfg0 chart2Hi Event.onLeave).state Event.onLeave).effects := by
  decide

theorem scatter_C4_leave_witness :
    (step cfg0 chart2Hi Event.onLeave).threw = false ∧
    (step cfg0 chart2Hi Event.onLeave).state.activePoint = (-1, -1) ∧
    (∀ p, getHandle chart2Hi.points chart2Hi.activePoint.1 chart2Hi.activePoint.2 =
        some p →
      getHandle (step cfg0 chart2Hi Event.onLeave).state.points
        chart2Hi.activePoint.1 chart2Hi.activePoint.2 =
        some (updateStyle p dimOpacity)) ∧
    (∀ a b, (a, b) ≠ (chart2Hi.activePoint.1, chart2Hi.activePoint.2) →
      getHandle (step cfg0 chart2Hi Event.onLeave).state.points a b =
        getHandle chart2Hi.points a b) ∧
    noneEmphasized (step cfg0 chart2Hi Event.onLeave).state.points ∧
    styleTargets (step cfg0 chart2Hi Event.onLeave).effects ⊆
      [(chart2Hi.activePoint.1, chart2Hi.activePoint.2, dimOpacity)] ∧
    (step cfg0 chart2Hi Event.onLeave).effects.count Effect.tooltipHideCall =
      (if chart2Hi.tooltip then 1 else 0) ∧
    (chart2Hi.activePoint = (-1, -1) →
      (step cfg0 chart2Hi Event.onLeave).state = chart2Hi ∧
      styleTargets (step cfg0 chart2Hi Event.onLeave).effects = []) :=
  scatter_C4_leave cfg0 chart2Hi (by decide) (by decide)

/-- Claim C8: an `onPoint` event whose resolved pair is out of range of the
current registry makes the handler throw (the nested dereference of an
`undefined` handle raises a TypeError) before any tooltip update, and the
only style mutation that can precede the throw is the dim restore of the
previously active point — no other handle is ever silently mutated. -/
theorem scatter_C8_out_of_range (cfg : Config) (s : ChartState) (k l : ℕ)
    (hout : getHandle s.points (Int.ofNat k) (Int.ofNat l) = none) :
    (step cfg s (Event.onPoint (some k) l)).threw = true ∧
    Effect.tooltipUpdateCall ∉ (step cfg s (Event.onPoint (some k) l)).effects ∧
    styleTargets (step cfg s (Event.onPoint (some k) l)).effects ⊆
      [(s.activePoint.1, s.activePoint.2, dimOpacity)] := by
  show (onPointStep s (some k) l).threw = true ∧
    Effect.tooltipUpdateCall ∉ (onPointStep s (some k) l).effects ∧
    styleTargets (onPointStep s (some k) l).effects ⊆
      [(s.activePoint.1, s.activePoint.2, dimOpacity)]
  by_cases h1 : s.activePoint.1 ≠ -1 ∧ s.activePoint.2 ≠ -1
  · match hold : getHandle s.points s.activePoint.1 s.activePoint.2 with
    | none =>
      have hsap := setActivePoint_stale (Int.ofNat k) (Int.ofNat l) rfl h1.1 h1.2 hold
      have hsap2 : setActivePoint s (Int.ofNat ((some k).getD 0)) (Int.ofNat l) =
          ⟨[Effect.derefPoint s.activePoint.1 s.activePoint.2], s, true⟩ := hsap
      rw [onPointStep_of_threw s (some k) l (by rw [hsap2]), hsap2]
      refine ⟨rfl, by simp, ?_⟩
      simp [styleTargets]
    | some pOld =>
      have hne2 : ((Int.ofNat k : ℤ), (Int.ofNat l : ℤ)) ≠
          (s.activePoint.1, s.activePoint.2) := by
        intro hEq
        have hk := congrArg Prod.fst hEq
        have hl := congrArg Prod.snd hEq
        rw [← hk, ← hl] at hold
        rw [hout] at hold
        exact Option.noConfusion hold
      have hG2 : getHandle (setOpacity s.points s.activePoint.1 s.activePoint.2
          dimOpacity) (Int.ofNat k) (Int.ofNat l) = none := by
        rw [getHandle_setOpacity_ne hne2]
        exact hout
      have hsap := setActivePoint_from_highlighted_full (Int.ofNat k) (Int.ofNat l)
        rfl h1.1 h1.2 hold (int_ofNat_ne_neg_one k) (int_ofNat_ne_neg_one l)
      simp only [hG2] at hsap
      have hsap2 : setActivePoint s (Int.ofNat ((some k).getD 0)) (Int.ofNat l) =
          ⟨[Effect.derefPoint s.activePoint.1 s.activePoint.2,
            Effect.styleUpdate s.activePoint.1 s.activePoint.2 dimOpacity,
            Effect.derefPoint (Int.ofNat k) (Int.ofNat l)],
           { s with
              points := setOpacity s.points s.activePoint.1 s.activePoint.2 dimOpacity,
              activePoint := (Int.ofNat k, Int.ofNat l) }, true⟩ := hsap
      rw [onPointStep_of_threw s (some k) l (by rw [hsap2]), hsap2]
      refine ⟨rfl, by simp, ?_⟩
      simp [styleTargets]
  · have hsap := setActivePoint_noDeset_set h1
      (int_ofNat_ne_neg_one k) (int_ofNat_ne_neg_one l)
    simp only [hout] at hsap
    have hsap2 : setActivePoint s (Int.ofNat ((some k).getD 0)) (Int.ofNat l) =
        ⟨[Effect.derefPoint (Int.ofNat k) (Int.ofNat l)],
         { s with activePoint := (Int.ofNat k, Int.ofNat l) }, true⟩ := hsap
    rw [onPointStep_of_threw s (some k) l (by rw [hsap2]), hsap2]
    refine ⟨rfl, by simp, ?_⟩
    simp [styleTargets]

theorem scatter_C8_out_of_range_witness :
    (step cfg0 chart2 (Event.onPoint (some 5) 0)).threw = true ∧
    Effect.tooltipUpdateCall ∉ (step cfg0 chart2 (Event.onPoint (some 5) 0)).effects ∧
    styleTargets (step cfg0 chart2 (Event.onPoint (some 5) 0)).effects ⊆
      [(chart2.activePoint.1, chart2.activePoint.2, dimOpacity)] :=
  scatter_C8_out_of_range cfg0 chart2 5 0 (by decide)

/-- Claim C2 is violated by the code: `redraw` does not clear
`_activePoint`, so after a redraw with a smaller dataset the stale pair
(1, 0) is dereferenced against the freshly mounted one-series registry by
the next `onLeave`, and the handler throws. -/
theorem scatter_C2_stale_pair_deref :
    (step cfg0 chart2 (Event.onPoint (some 1) 0)).state.activePoint = (1, 0) ∧
    chartStale.activePoint = (1, 0) ∧
    chartStale.points.length = 1 ∧
    Effect.derefPoint 1 0 ∈ (step cfg0 chartStale Event.onLeave).effects ∧
    (step cfg0 chartStale Event.onLeave).threw = true := by
  decide

end Scatter
